import Mathlib

/-!
Shallow embedding of the gamma-exposure analytics engine of
`src/web-app/calculations.js` (classes `GammaCalculator`, `WallAnalyzer`,
`MetricsCalculator`, `ExpectedMoveCalculator`).

JavaScript numbers are modelled by real numbers.  At the spots where the
JavaScript code can produce `Infinity` or `NaN` (division, `Math.min` /
`Math.max` over an empty spread, `Math.sqrt` of a negative), the result is
modelled by the type `JsVal`, whose arithmetic follows the IEEE rules JS
uses for those special values.  Sums of ordinary (finite) numbers stay in
`ℝ`.  The JavaScript stable `Array.prototype.sort` is modelled by
`List.insertionSort` with a non-strict comparison, which is stable.
-/

noncomputable section

namespace GexCalc

/-- A JavaScript number that may be `Infinity`, `-Infinity` or `NaN`. -/
inductive JsVal where
  | fin : ℝ → JsVal
  | posInf : JsVal
  | negInf : JsVal
  | nan : JsVal
  deriving DecidableEq

namespace JsVal

/-- JS division of two finite numbers: `x / 0` is `±Infinity` (or `NaN` for `0 / 0`). -/
def finDiv (x y : ℝ) : JsVal :=
  if y = 0 then
    if 0 < x then posInf else if x < 0 then negInf else nan
  else fin (x / y)

/-- JS `Math.abs` extended to special values. -/
def abs : JsVal → JsVal
  | fin x => fin |x|
  | posInf => posInf
  | negInf => posInf
  | nan => nan

/-- JS addition with special values. -/
def add : JsVal → JsVal → JsVal
  | fin x, fin y => fin (x + y)
  | fin _, posInf => posInf
  | fin _, negInf => negInf
  | posInf, fin _ => posInf
  | negInf, fin _ => negInf
  | posInf, posInf => posInf
  | negInf, negInf => negInf
  | posInf, negInf => nan
  | negInf, posInf => nan
  | _, _ => nan

/-- JS subtraction with special values. -/
def sub : JsVal → JsVal → JsVal
  | fin x, fin y => fin (x - y)
  | fin _, posInf => negInf
  | fin _, negInf => posInf
  | posInf, fin _ => posInf
  | negInf, fin _ => negInf
  | posInf, negInf => posInf
  | negInf, posInf => negInf
  | posInf, posInf => nan
  | negInf, negInf => nan
  | _, _ => nan

/-- JS multiplication with special values (`0 · ∞ = NaN`). -/
def mul : JsVal → JsVal → JsVal
  | fin x, fin y => fin (x * y)
  | fin x, posInf => if 0 < x then posInf else if x < 0 then negInf else nan
  | fin x, negInf => if 0 < x then negInf else if x < 0 then posInf else nan
  | posInf, fin y => if 0 < y then posInf else if y < 0 then negInf else nan
  | negInf, fin y => if 0 < y then negInf else if y < 0 then posInf else nan
  | posInf, posInf => posInf
  | negInf, negInf => posInf
  | posInf, negInf => negInf
  | negInf, posInf => negInf
  | _, _ => nan

/-- JS division with special values. -/
def div : JsVal → JsVal → JsVal
  | fin x, fin y => finDiv x y
  | fin _, posInf => fin 0
  | fin _, negInf => fin 0
  | posInf, fin y => if y < 0 then negInf else posInf
  | negInf, fin y => if y < 0 then posInf else negInf
  | _, _ => nan

/-- JS `Math.sqrt` with special values (`NaN` on negatives). -/
def sqrt : JsVal → JsVal
  | fin x => if x < 0 then nan else fin (Real.sqrt x)
  | posInf => posInf
  | _ => nan

/-- JS `>=` against a finite constant: every comparison with `NaN` is false. -/
def geReal (v : JsVal) (t : ℝ) : Bool :=
  match v with
  | fin x => decide (t ≤ x)
  | posInf => true
  | _ => false

/-- JS binary `Math.min` (total on the values that occur here). -/
def min2 : JsVal → JsVal → JsVal
  | fin x, fin y => fin (min x y)
  | fin x, posInf => fin x
  | posInf, fin y => fin y
  | fin _, negInf => negInf
  | negInf, fin _ => negInf
  | posInf, posInf => posInf
  | negInf, _ => negInf
  | _, negInf => negInf
  | _, _ => nan

/-- JS binary `Math.max` (total on the values that occur here). -/
def max2 : JsVal → JsVal → JsVal
  | fin x, fin y => fin (max x y)
  | fin x, negInf => fin x
  | negInf, fin y => fin y
  | fin _, posInf => posInf
  | posInf, fin _ => posInf
  | negInf, negInf => negInf
  | posInf, _ => posInf
  | _, posInf => posInf
  | _, _ => nan

/-- JS `Math.min(...list)`: `Infinity` on the empty spread. -/
def minList (l : List ℝ) : JsVal := l.foldr (fun x acc => min2 (fin x) acc) posInf

/-- JS `Math.max(...list)`: `-Infinity` on the empty spread. -/
def maxList (l : List ℝ) : JsVal := l.foldr (fun x acc => max2 (fin x) acc) negInf

/-- Sum (JS `reduce` with initial value `0`) of a list of `JsVal`s. -/
def sumList (l : List JsVal) : JsVal := l.foldl add (fin 0)

end JsVal

/-- An option contract as consumed by the engine
(`strike`, `optionType`, `openInterest`, `impliedVolatility`, `daysToExpiry`). -/
structure Contract where
  strike : ℝ
  optionType : String
  openInterest : ℝ
  impliedVolatility : ℝ
  daysToExpiry : ℝ

/-- `class GammaCalculator`: carries the risk-free rate (default `0.05`). -/
structure GammaCalculator where
  riskFreeRate : ℝ := 0.05

namespace GammaCalculator

/-- `normPDF(x) = exp(-0.5·x·x) / sqrt(2·π)`. -/
def normPDF (x : ℝ) : ℝ :=
  Real.exp (-0.5 * x * x) / Real.sqrt (2 * Real.pi)

/-- The Abramowitz–Stegun approximation `normCDF` of the source. -/
def normCDF (x : ℝ) : ℝ :=
  let t := 1 / (1 + 0.2316419 * |x|)
  let d := 0.3989423 * Real.exp (-x * x / 2)
  let prob := d * t * (0.3193815 + t * (-0.3565638 + t * (1.781478 + t * (-1.821256 + t * 1.330274))))
  if 0 < x then 1 - prob else prob

/-- `calculateD1(spotPrice, strike, timeToExpiry, volatility)`. -/
def calculateD1 (gc : GammaCalculator) (spotPrice strike timeToExpiry volatility : ℝ) : ℝ :=
  let numerator := Real.log (spotPrice / strike) +
    (gc.riskFreeRate + 0.5 * volatility * volatility) * timeToExpiry
  let denominator := volatility * Real.sqrt timeToExpiry
  numerator / denominator

/-- `calculateGamma(spotPrice, strike, timeToExpiry, volatility)`:
`0` when `timeToExpiry ≤ 0`, else `normPDF(d1) / (spot·vol·√τ)`. -/
def calculateGamma (gc : GammaCalculator) (spotPrice strike timeToExpiry volatility : ℝ) : ℝ :=
  if timeToExpiry ≤ 0 then 0
  else
    let d1 := gc.calculateD1 spotPrice strike timeToExpiry volatility
    normPDF d1 / (spotPrice * volatility * Real.sqrt timeToExpiry)

end GammaCalculator

/-- The record returned by `calculateGammaExposure`. -/
structure ExposureResult where
  strike : ℝ
  optionType : String
  gamma : ℝ
  gammaExposure : ℝ
  openInterest : ℝ

/-- `calculateGammaExposure(contract, spotPrice)`: per-contract signed dealer
exposure; calls get `-base`, everything else `+base`. -/
def calculateGammaExposure (gc : GammaCalculator) (contract : Contract) (spotPrice : ℝ) :
    ExposureResult :=
  let timeToExpiry := contract.daysToExpiry / 365
  let gamma := gc.calculateGamma spotPrice contract.strike timeToExpiry contract.impliedVolatility
  let gammaExposure := gamma * contract.openInterest * 100 * spotPrice * spotPrice
  let mmGamma := if contract.optionType = "call" then -gammaExposure else gammaExposure
  { strike := contract.strike
    optionType := contract.optionType
    gamma := gamma
    gammaExposure := mmGamma
    openInterest := contract.openInterest }

/-- A per-strike bucket of the `strikeMap` of `aggregateByStrike`
(a `StrikeAggregate` of the spec). -/
structure StrikeData where
  strike : ℝ
  callGamma : ℝ
  putGamma : ℝ
  netGamma : ℝ
  totalOI : ℝ
  deriving DecidableEq

/-- The zero bucket `aggregateByStrike` installs on first sight of a strike. -/
def emptyStrikeData (s : ℝ) : StrikeData :=
  { strike := s, callGamma := 0, putGamma := 0, netGamma := 0, totalOI := 0 }

/-- The `strikeMap` of `aggregateByStrike`: the set of keys present, together
with the bucket stored at each key (absent keys carry the zero bucket that
would be installed on first access). -/
structure AggState where
  keys : Finset ℝ
  data : ℝ → StrikeData

/-- The empty `strikeMap`. -/
def initAggState : AggState :=
  { keys := ∅, data := fun s => emptyStrikeData s }

/-- The bucket update of one iteration of the `contracts.forEach` body of
`aggregateByStrike`: add the exposure to the matching side, recompute
`netGamma = callGamma + putGamma`, accumulate `totalOI`. -/
def updateStrikeData (base : StrikeData) (e : ExposureResult) : StrikeData :=
  let withSide :=
    if e.optionType = "call" then { base with callGamma := base.callGamma + e.gammaExposure }
    else { base with putGamma := base.putGamma + e.gammaExposure }
  { withSide with
      netGamma := withSide.callGamma + withSide.putGamma
      totalOI := withSide.totalOI + e.openInterest }

/-- One iteration of the `contracts.forEach` body of `aggregateByStrike`:
fold one contract's exposure into its strike bucket. -/
def applyExposure (st : AggState) (e : ExposureResult) : AggState :=
  { keys := insert e.strike st.keys
    data := fun t => if t = e.strike then updateStrikeData (st.data e.strike) e else st.data t }

/-- The `strikeMap` after the `forEach` loop of `aggregateByStrike`. -/
def aggFold (gc : GammaCalculator) (contracts : List Contract) (spotPrice : ℝ) : AggState :=
  contracts.foldl (fun st c => applyExposure st (calculateGammaExposure gc c spotPrice))
    initAggState

/-- `aggregateByStrike(contracts, spotPrice)`: fold every contract into its
strike bucket, then return the buckets sorted ascending by strike. -/
def aggregateByStrike (gc : GammaCalculator) (contracts : List Contract) (spotPrice : ℝ) :
    List StrikeData :=
  let final := aggFold gc contracts spotPrice
  (final.keys.sort (· ≤ ·)).map final.data

/-- The record returned by `getAverageIVAndDTE`. -/
structure IVStats where
  atmIV : ℝ
  overallAvgIV : ℝ
  avgDTE : ℝ
  deriving DecidableEq

/-- The value of the JS expression `window.currentPrice || 450`: the ambient
global price when it is set and truthy (nonzero), else the literal `450`. -/
def windowCurrentPriceOr450 : Option ℝ → ℝ
  | none => 450
  | some p => if p = 0 then 450 else p

/-- `ExpectedMoveCalculator.getAverageIVAndDTE(contracts)`.  The JS function
reads the ambient global `window.currentPrice`; that ambient state is the
explicit first argument here (`none` models an unset global).  A `null`
contract list is modelled by `none`. -/
def getAverageIVAndDTE (windowCurrentPrice : Option ℝ)
    (contracts : Option (List Contract)) : IVStats :=
  match contracts with
  | none => { atmIV := 0, overallAvgIV := 0, avgDTE := 0 }
  | some cs =>
    if cs.isEmpty then { atmIV := 0, overallAvgIV := 0, avgDTE := 0 }
    else
      let totalIV := (cs.map (fun c => c.impliedVolatility)).sum
      let overallAvgIV := totalIV / cs.length
      let current := windowCurrentPriceOr450 windowCurrentPrice
      let contractsWithDistance := cs.map (fun c => (c, |c.strike - current|))
      let sorted := contractsWithDistance.insertionSort (fun a b => a.2 ≤ b.2)
      let numATMContracts := min 10 contractsWithDistance.length
      let atmContracts := sorted.take numATMContracts
      let atmIVSum := (atmContracts.map (fun item => item.1.impliedVolatility)).sum
      let atmIV := atmIVSum / atmContracts.length
      let totalDTE := (cs.map (fun c => c.daysToExpiry)).sum
      let avgDTE := totalDTE / cs.length
      { atmIV := atmIV, overallAvgIV := overallAvgIV, avgDTE := avgDTE }

/-- `class WallAnalyzer`: carries the significance threshold (default `0.05`). -/
structure WallAnalyzer where
  minSignificanceThreshold : ℝ := 0.05

/-- The intermediate candidate record built inside `findCallWalls` / `findPutWalls`. -/
structure WallCandidate where
  strike : ℝ
  exposure : ℝ
  rawExposure : ℝ
  distance : ℝ

/-- The record returned for each detected wall. -/
structure Wall where
  strike : ℝ
  exposureValue : ℝ
  wallType : String
  distanceFromSpot : ℝ
  significanceRank : ℕ

namespace WallAnalyzer

/-- `findCallWalls(gammaExposures, currentPrice, maxWalls = 5)`. -/
def findCallWalls (wa : WallAnalyzer) (gammaExposures : List StrikeData)
    (currentPrice : ℝ) (maxWalls : ℕ := 5) : List Wall :=
  let callCandidates :=
    (((gammaExposures.filter (fun ge => decide (ge.callGamma < 0))).map
      (fun ge => ({ strike := ge.strike, exposure := |ge.callGamma|,
                    rawExposure := ge.callGamma,
                    distance := |ge.strike - currentPrice| } : WallCandidate))).insertionSort
      (fun a b => b.exposure ≤ a.exposure))
  if callCandidates.isEmpty then []
  else
    let totalCallExposure := (callCandidates.map (fun c => c.exposure)).sum
    let threshold := totalCallExposure * wa.minSignificanceThreshold
    (((callCandidates.filter (fun c => decide (threshold ≤ c.exposure))).take
        maxWalls).enum).map
      (fun ic => ({ strike := ic.2.strike, exposureValue := ic.2.rawExposure,
                    wallType := "call_wall", distanceFromSpot := ic.2.distance,
                    significanceRank := ic.1 + 1 } : Wall))

/-- `findPutWalls(gammaExposures, currentPrice, maxWalls = 5)`. -/
def findPutWalls (wa : WallAnalyzer) (gammaExposures : List StrikeData)
    (currentPrice : ℝ) (maxWalls : ℕ := 5) : List Wall :=
  let putCandidates :=
    (((gammaExposures.filter (fun ge => decide (0 < ge.putGamma))).map
      (fun ge => ({ strike := ge.strike, exposure := ge.putGamma,
                    rawExposure := ge.putGamma,
                    distance := |ge.strike - currentPrice| } : WallCandidate))).insertionSort
      (fun a b => b.exposure ≤ a.exposure))
  if putCandidates.isEmpty then []
  else
    let totalPutExposure := (putCandidates.map (fun c => c.exposure)).sum
    let threshold := totalPutExposure * wa.minSignificanceThreshold
    (((putCandidates.filter (fun c => decide (threshold ≤ c.exposure))).take
        maxWalls).enum).map
      (fun ic => ({ strike := ic.2.strike, exposureValue := ic.2.rawExposure,
                    wallType := "put_wall", distanceFromSpot := ic.2.distance,
                    significanceRank := ic.1 + 1 } : Wall))

end WallAnalyzer

/-- The record returned by `calculateAllMetrics`.  Fields that the JS code
computes through division, empty `Math.min`/`Math.max` spreads or `Math.sqrt`
are `JsVal` (they can be `Infinity` or `NaN`). -/
structure GammaMetrics where
  totalNetGamma : ℝ
  totalCallGamma : ℝ
  totalPutGamma : ℝ
  gammaWeightedAvgStrike : JsVal
  callPutGammaRatio : JsVal
  maxCallExposure : JsVal
  maxPutExposure : JsVal
  gammaExposureStd : JsVal

/-- `MetricsCalculator.calculateAllMetrics(gammaExposures)`. -/
def calculateAllMetrics (gammaExposures : List StrikeData) : GammaMetrics :=
  let totalNetGamma := (gammaExposures.map (fun ge => ge.netGamma)).sum
  let totalCallGamma := (gammaExposures.map (fun ge => ge.callGamma)).sum
  let totalPutGamma := (gammaExposures.map (fun ge => ge.putGamma)).sum
  let totalAbsGamma := (gammaExposures.map (fun ge => |ge.netGamma|)).sum
  let weightedStrike :=
    JsVal.finDiv ((gammaExposures.map (fun ge => ge.strike * |ge.netGamma|)).sum) totalAbsGamma
  let callPutRatio := (JsVal.finDiv totalCallGamma totalPutGamma).abs
  let maxCallExposure := JsVal.minList (gammaExposures.map (fun ge => ge.callGamma))
  let maxPutExposure := JsVal.maxList (gammaExposures.map (fun ge => ge.putGamma))
  let mean := JsVal.finDiv totalNetGamma gammaExposures.length
  let variance :=
    JsVal.div
      (JsVal.sumList (gammaExposures.map (fun ge =>
        JsVal.mul (JsVal.sub (JsVal.fin ge.netGamma) mean)
          (JsVal.sub (JsVal.fin ge.netGamma) mean))))
      (JsVal.fin gammaExposures.length)
  { totalNetGamma := totalNetGamma
    totalCallGamma := totalCallGamma
    totalPutGamma := totalPutGamma
    gammaWeightedAvgStrike := weightedStrike
    callPutGammaRatio := callPutRatio
    maxCallExposure := maxCallExposure
    maxPutExposure := maxPutExposure
    gammaExposureStd := variance.sqrt }

/-- The `strengthInterpretation` sub-record of `calculateGammaEnvironment`. -/
structure StrengthInterpretation where
  level : String
  color : String
  volatilityImpact : String
  description : String
  deriving DecidableEq

/-- The record returned by `calculateGammaEnvironment`. -/
structure GammaEnvironment where
  environment : String
  environmentStrength : JsVal
  strengthInterpretation : StrengthInterpretation
  gammaFlipLevel : Option ℝ
  description : String
  positiveStrikes : ℕ
  negativeStrikes : ℕ
  neutralStrikes : ℕ
  positiveStrikePercentage : JsVal
  negativeStrikePercentage : JsVal

/-- The sign-change test of the gamma-flip loop:
`(current.netGamma > 0 && next.netGamma < 0) || (current.netGamma < 0 && next.netGamma > 0)`. -/
def netSignChange (current next : StrikeData) : Prop :=
  (0 < current.netGamma ∧ next.netGamma < 0) ∨
    (current.netGamma < 0 ∧ 0 < next.netGamma)

instance : ∀ a b, Decidable (netSignChange a b) := fun _ _ => by
  unfold netSignChange; infer_instance

/-- The gamma-flip scan of `calculateGammaEnvironment`: walk adjacent pairs in
list order and return the midpoint of the first pair whose `netGamma` values
have strictly opposite signs (the loop `break`s there); `null` if none. -/
def findFlipLevel : List StrikeData → Option ℝ
  | current :: next :: rest =>
    if netSignChange current next then
      some ((current.strike + next.strike) / 2)
    else findFlipLevel (next :: rest)
  | _ => none

/-- `MetricsCalculator.calculateGammaEnvironment(gammaExposures, currentPrice)`. -/
def calculateGammaEnvironment (gammaExposures : List StrikeData) (currentPrice : ℝ) :
    GammaEnvironment :=
  let metrics := calculateAllMetrics gammaExposures
  let environment :=
    if 0 < metrics.totalNetGamma then "positive"
    else if metrics.totalNetGamma < 0 then "negative" else "neutral"
  let totalOI := (gammaExposures.map (fun ge => ge.totalOI)).sum
  let strength := JsVal.finDiv |metrics.totalNetGamma| (currentPrice * totalOI)
  let interp : StrengthInterpretation :=
    if strength.geReal 0.10 then
      { level := "Very Strong", color := "🔴",
        volatilityImpact := "Extreme impact expected",
        description := "Dominant market maker forces with very high confidence in gamma effects" }
    else if strength.geReal 0.05 then
      { level := "Strong", color := "🟠",
        volatilityImpact := "Significant impact expected",
        description := "Strong gamma forces create meaningful price dynamics" }
    else if strength.geReal 0.02 then
      { level := "Moderate", color := "🟡",
        volatilityImpact := "Noticeable impact",
        description := "Moderate gamma influence alongside other market factors" }
    else if strength.geReal 0.01 then
      { level := "Weak", color := "🟢",
        volatilityImpact := "Limited impact",
        description := "Weak gamma forces, other factors likely more important" }
    else
      { level := "Very Weak", color := "⚪",
        volatilityImpact := "Minimal impact",
        description := "Minimal gamma influence on price action" }
  let gammaFlipLevel := findFlipLevel gammaExposures
  let positiveStrikes := (gammaExposures.filter (fun ge => decide (0 < ge.netGamma))).length
  let negativeStrikes := (gammaExposures.filter (fun ge => decide (ge.netGamma < 0))).length
  let neutralStrikes := (gammaExposures.filter (fun ge => decide (ge.netGamma = 0))).length
  let totalStrikes := gammaExposures.length
  let envDescription :=
    if environment = "positive" then
      "Market makers are net long gamma, providing price stability through mean-reverting hedging flows. Expect lower volatility and range-bound trading."
    else if environment = "negative" then
      "Market makers are net short gamma, amplifying price moves through momentum-reinforcing hedging flows. Expect higher volatility and trending behavior."
    else
      "Balanced gamma exposure with mixed market maker positioning. Moderate volatility expected with no clear directional bias."
  { environment := environment
    environmentStrength := strength
    strengthInterpretation := interp
    gammaFlipLevel := gammaFlipLevel
    description := envDescription
    positiveStrikes := positiveStrikes
    negativeStrikes := negativeStrikes
    neutralStrikes := neutralStrikes
    positiveStrikePercentage :=
      JsVal.mul (JsVal.finDiv positiveStrikes totalStrikes) (JsVal.fin 100)
    negativeStrikePercentage :=
      JsVal.mul (JsVal.finDiv negativeStrikes totalStrikes) (JsVal.fin 100) }

instance : Inhabited StrikeData := ⟨emptyStrikeData 0⟩

/-- Modelled from the spec (§7): validity of a single contract — positive
strike, non-negative open interest, positive implied volatility.  The engine
itself contains no such check; this predicate only states what the claim says
aggregation should filter on. -/
def specValidContract (c : Contract) : Prop :=
  0 < c.strike ∧ 0 ≤ c.openInterest ∧ 0 < c.impliedVolatility

/-- A plain valid call contract used as a concrete test input. -/
def sampleCall : Contract :=
  { strike := 100, optionType := "call", openInterest := 10,
    impliedVolatility := 1/10, daysToExpiry := 30 }

/-- A plain valid put contract used as a concrete test input. -/
def samplePut : Contract :=
  { strike := 105, optionType := "put", openInterest := 20,
    impliedVolatility := 1/5, daysToExpiry := 30 }

/-- An invalid contract: negative open interest. -/
def invalidContract : Contract :=
  { strike := 100, optionType := "call", openInterest := -5,
    impliedVolatility := 1/5, daysToExpiry := 30 }

/-- A contract near strike 100 with implied volatility `0.10`. -/
def atmNearContract : Contract :=
  { strike := 100, optionType := "call", openInterest := 10,
    impliedVolatility := 1/10, daysToExpiry := 30 }

/-- A contract at strike 200 with implied volatility `0.90`. -/
def atmFarContract : Contract :=
  { strike := 200, optionType := "call", openInterest := 10,
    impliedVolatility := 9/10, daysToExpiry := 30 }

/-- Eleven contracts: ten at strike 100 and one at strike 200, so that the
ten-contract ATM window must drop exactly one of them. -/
def elevenContracts : List Contract :=
  [atmNearContract, atmNearContract, atmNearContract, atmNearContract, atmNearContract,
   atmNearContract, atmNearContract, atmNearContract, atmNearContract, atmNearContract,
   atmFarContract]

/-- An aggregate whose net gamma is the given signed value. -/
def signedAggregate (s net : ℝ) : StrikeData :=
  { strike := s, callGamma := net, putGamma := 0, netGamma := net, totalOI := 1 }

/-- Scenario E of the spec: net-gamma signs `[+,+,−,+]` at strikes
`100,101,102,103`. -/
def scenarioEAggregates : List StrikeData :=
  [signedAggregate 100 1, signedAggregate 101 1,
   signedAggregate 102 (-1), signedAggregate 103 1]

/-- A strike aggregate with all fields zero. -/
def zeroAggregate : StrikeData :=
  { strike := 100, callGamma := 0, putGamma := 0, netGamma := 0, totalOI := 0 }

/-- A strike aggregate with call gamma only (`totalPutGamma = 0`, `totalCallGamma = 3`). -/
def callOnlyAggregate : StrikeData :=
  { strike := 100, callGamma := 3, putGamma := 0, netGamma := 3, totalOI := 0 }

/-- A strike aggregate whose call and put exposures cancel (`netGamma = 0`). -/
def cancelAggregate : StrikeData :=
  { strike := 100, callGamma := 5, putGamma := -5, netGamma := 0, totalOI := 0 }

/-- A strike aggregate with a negative call exposure and a positive put
exposure, so it is both a call-wall and a put-wall candidate. -/
def wallAggregate : StrikeData :=
  { strike := 100, callGamma := -5, putGamma := 2, netGamma := -3, totalOI := 10 }

/-! ### Helper lemmas -/

lemma AggState.ext' {a b : AggState} (hk : a.keys = b.keys) (hd : ∀ t, a.data t = b.data t) :
    a = b := by
  cases a; cases b
  simp only [AggState.mk.injEq]
  exact ⟨hk, funext hd⟩

lemma updateStrikeData_comm (b : StrikeData) (e1 e2 : ExposureResult) :
    updateStrikeData (updateStrikeData b e1) e2 = updateStrikeData (updateStrikeData b e2) e1 := by
  unfold updateStrikeData
  by_cases h1 : e1.optionType = "call" <;> by_cases h2 : e2.optionType = "call" <;>
    simp [h1, h2, StrikeData.mk.injEq] <;> (repeat' apply And.intro) <;> ring

lemma applyExposure_comm (st : AggState) (e1 e2 : ExposureResult) :
    applyExposure (applyExposure st e1) e2 = applyExposure (applyExposure st e2) e1 := by
  by_cases hs : e1.strike = e2.strike
  · apply AggState.ext'
    · simp [applyExposure, hs, Finset.Insert.comm]
    · intro t
      by_cases ht : t = e2.strike
      · simp [applyExposure, hs, ht, updateStrikeData_comm]
      · simp [applyExposure, hs, ht]
  · apply AggState.ext'
    · simp [applyExposure, Finset.Insert.comm]
    · intro t
      by_cases h1 : t = e1.strike <;> by_cases h2 : t = e2.strike <;>
        simp [applyExposure, h1, h2, hs, Ne.symm hs]

lemma applyExposure_net (st : AggState) (e : ExposureResult)
    (h : ∀ s, ((st.data s).netGamma = (st.data s).callGamma + (st.data s).putGamma)) :
    ∀ s, (((applyExposure st e).data s).netGamma
      = ((applyExposure st e).data s).callGamma + ((applyExposure st e).data s).putGamma) := by
  intro s
  by_cases hs : s = e.strike
  · by_cases hc : e.optionType = "call" <;> simp [applyExposure, updateStrikeData, hs, hc]
  · simpa [applyExposure, hs] using h s

lemma aggFold_net (gc : GammaCalculator) (contracts : List Contract) (spotPrice : ℝ) :
    ∀ s, (((aggFold gc contracts spotPrice).data s).netGamma
      = ((aggFold gc contracts spotPrice).data s).callGamma
        + ((aggFold gc contracts spotPrice).data s).putGamma) := by
  unfold aggFold
  suffices h : ∀ (l : List Contract) (st : AggState),
      (∀ s, ((st.data s).netGamma = (st.data s).callGamma + (st.data s).putGamma)) →
      ∀ s, (((l.foldl (fun st c => applyExposure st (calculateGammaExposure gc c spotPrice)) st).data s).netGamma
        = ((l.foldl (fun st c => applyExposure st (calculateGammaExposure gc c spotPrice)) st).data s).callGamma
          + ((l.foldl (fun st c => applyExposure st (calculateGammaExposure gc c spotPrice)) st).data s).putGamma) by
    exact h contracts initAggState (by intro s; simp [initAggState, emptyStrikeData])
  intro l
  induction l with
  | nil => intro st hst; simpa using hst
  | cons c l ih =>
    intro st hst
    exact ih _ (applyExposure_net st _ hst)

lemma aggFold_keys (gc : GammaCalculator) (spot : ℝ) :
    ∀ (l : List Contract) (st : AggState),
      (l.foldl (fun st c => applyExposure st (calculateGammaExposure gc c spot)) st).keys
        = st.keys ∪ (l.map (fun c => c.strike)).toFinset
  | [], st => by simp
  | c :: l, st => by
    rw [List.foldl_cons, aggFold_keys gc spot l]
    simp [applyExposure, calculateGammaExposure, Finset.insert_union, Finset.union_insert]

lemma aggFold_strike (gc : GammaCalculator) (spot : ℝ) :
    ∀ (l : List Contract) (st : AggState),
      (∀ s, (st.data s).strike = s) →
      ∀ s, ((l.foldl (fun st c => applyExposure st (calculateGammaExposure gc c spot)) st).data s).strike = s
  | [], st => fun h => h
  | c :: l, st => by
    intro h
    rw [List.foldl_cons]
    apply aggFold_strike gc spot l
    intro s
    by_cases hs : s = (calculateGammaExposure gc c spot).strike
    · simp [applyExposure, hs, updateStrikeData]
      by_cases hc : (calculateGammaExposure gc c spot).optionType = "call" <;>
        simp [hc, h]
    · simp [applyExposure, hs, h]

lemma mem_aggregate_of_mem (gc : GammaCalculator) (l : List Contract) (spot : ℝ)
    (c : Contract) (hc : c ∈ l) :
    ∃ b ∈ aggregateByStrike gc l spot, b.strike = c.strike := by
  have hkeys : c.strike ∈ (aggFold gc l spot).keys := by
    unfold aggFold
    rw [aggFold_keys gc spot l]
    simp [initAggState]
    exact ⟨c, hc, rfl⟩
  refine ⟨(aggFold gc l spot).data c.strike, ?_, ?_⟩
  · unfold aggregateByStrike
    exact List.mem_map.mpr ⟨c.strike, by rw [Finset.mem_sort]; exact hkeys, rfl⟩
  · unfold aggFold
    exact aggFold_strike gc spot l initAggState (fun s => rfl) c.strike

lemma findFlipLevel_first :
    ∀ (l : List StrikeData) (pre post : List (StrikeData × StrikeData)) (a b : StrikeData),
      l.zip l.tail = pre ++ (a, b) :: post →
      (∀ q ∈ pre, ¬ netSignChange q.1 q.2) →
      netSignChange a b →
      findFlipLevel l = some ((a.strike + b.strike) / 2)
  | [], pre, post, a, b => by simp
  | [x], pre, post, a, b => by simp
  | x :: y :: r, pre, post, a, b => by
    intro hzip hpre hab
    have hzip' : (x, y) :: (y :: r).zip r = pre ++ (a, b) :: post := by
      simpa using hzip
    cases pre with
    | nil =>
      simp only [List.nil_append] at hzip'
      have hx : x = a := congrArg Prod.fst (List.head_eq_of_cons_eq hzip')
      have hy : y = b := congrArg Prod.snd (List.head_eq_of_cons_eq hzip')
      subst hx; subst hy
      simp [findFlipLevel, hab]
    | cons q pre' =>
      simp only [List.cons_append] at hzip'
      have hq : (x, y) = q := List.head_eq_of_cons_eq hzip'
      have hrest : (y :: r).zip ((y :: r).tail) = pre' ++ (a, b) :: post := by
        simpa using List.tail_eq_of_cons_eq hzip'
      have hnq : ¬ netSignChange x y := by
        have := hpre q (List.mem_cons_self q pre')
        rwa [← hq] at this
      have ih := findFlipLevel_first (y :: r) pre' post a b hrest
        (fun q' hq' => hpre q' (List.mem_cons_of_mem _ hq')) hab
      simp [findFlipLevel, hnq, ih]

lemma findFlipLevel_none_iff :
    ∀ l : List StrikeData,
      (findFlipLevel l = none ↔ ∀ q ∈ l.zip l.tail, ¬ netSignChange q.1 q.2)
  | [] => by simp [findFlipLevel]
  | [a] => by simp [findFlipLevel]
  | a :: b :: r => by
    by_cases h : netSignChange a b
    · simp [findFlipLevel, h]
    · have ih := findFlipLevel_none_iff (b :: r)
      simp [findFlipLevel, h, ih]

lemma calculateGammaEnvironment_flip (l : List StrikeData) (p : ℝ) :
    (calculateGammaEnvironment l p).gammaFlipLevel = findFlipLevel l := rfl

lemma length_filter_mono {α : Type} (l : List α) (p q : α → Bool)
    (h : ∀ a ∈ l, p a = true → q a = true) :
    (l.filter p).length ≤ (l.filter q).length := by
  induction l with
  | nil => simp
  | cons x xs ih =>
    have hx := h x (List.mem_cons_self x xs)
    have ih' := ih (fun a ha => h a (List.mem_cons_of_mem _ ha))
    by_cases hp : p x = true
    · rw [List.filter_cons_of_pos hp, List.filter_cons_of_pos (hx hp)]
      simpa using ih'
    · rw [List.filter_cons_of_neg (by simpa using hp)]
      by_cases hq : q x = true
      · rw [List.filter_cons_of_pos hq]
        exact ih'.trans (Nat.le_succ _)
      · rw [List.filter_cons_of_neg (by simpa using hq)]
        exact ih'

lemma findCallWalls_count_mono (aggs : List StrikeData) (p : ℝ) (m : ℕ) {t1 t2 : ℝ}
    (h : t1 ≤ t2) :
    (WallAnalyzer.findCallWalls ⟨t2⟩ aggs p m).length
      ≤ (WallAnalyzer.findCallWalls ⟨t1⟩ aggs p m).length := by
  unfold WallAnalyzer.findCallWalls
  simp only
  set c := (((aggs.filter (fun ge => decide (ge.callGamma < 0))).map
      (fun ge => ({ strike := ge.strike, exposure := |ge.callGamma|,
                    rawExposure := ge.callGamma,
                    distance := |ge.strike - p| } : WallCandidate))).insertionSort
      (fun a b => b.exposure ≤ a.exposure)) with hc
  by_cases he : c.isEmpty
  · simp [he]
  · simp only [he, if_false, Bool.false_eq_true]
    rw [List.length_map, List.length_map, List.enum_length, List.enum_length,
      List.length_take, List.length_take]
    apply min_le_min le_rfl
    have htot : 0 ≤ (c.map (fun x => x.exposure)).sum := by
      apply List.sum_nonneg
      intro x hx
      obtain ⟨w, hw, rfl⟩ := List.mem_map.mp hx
      rw [hc, List.mem_insertionSort] at hw
      obtain ⟨ge, hge, rfl⟩ := List.mem_map.mp hw
      exact abs_nonneg _
    apply length_filter_mono
    intro x _ hx
    simp only [decide_eq_true_eq] at hx ⊢
    calc (c.map (fun x => x.exposure)).sum * t1
        ≤ (c.map (fun x => x.exposure)).sum * t2 := mul_le_mul_of_nonneg_left h htot
      _ ≤ x.exposure := hx

lemma findPutWalls_count_mono (aggs : List StrikeData) (p : ℝ) (m : ℕ) {t1 t2 : ℝ}
    (h : t1 ≤ t2) :
    (WallAnalyzer.findPutWalls ⟨t2⟩ aggs p m).length
      ≤ (WallAnalyzer.findPutWalls ⟨t1⟩ aggs p m).length := by
  unfold WallAnalyzer.findPutWalls
  simp only
  set c := (((aggs.filter (fun ge => decide (0 < ge.putGamma))).map
      (fun ge => ({ strike := ge.strike, exposure := ge.putGamma,
                    rawExposure := ge.putGamma,
                    distance := |ge.strike - p| } : WallCandidate))).insertionSort
      (fun a b => b.exposure ≤ a.exposure)) with hc
  by_cases he : c.isEmpty
  · simp [he]
  · simp only [he, if_false, Bool.false_eq_true]
    rw [List.length_map, List.length_map, List.enum_length, List.enum_length,
      List.length_take, List.length_take]
    apply min_le_min le_rfl
    have htot : 0 ≤ (c.map (fun x => x.exposure)).sum := by
      apply List.sum_nonneg
      intro x hx
      obtain ⟨w, hw, rfl⟩ := List.mem_map.mp hx
      rw [hc, List.mem_insertionSort] at hw
      obtain ⟨ge, hge, rfl⟩ := List.mem_map.mp hw
      have := (List.mem_filter.mp hge).2
      simp only [decide_eq_true_eq] at this
      exact le_of_lt this
    apply length_filter_mono
    intro x _ hx
    simp only [decide_eq_true_eq] at hx ⊢
    calc (c.map (fun x => x.exposure)).sum * t1
        ≤ (c.map (fun x => x.exposure)).sum * t2 := mul_le_mul_of_nonneg_left h htot
      _ ≤ x.exposure := hx

lemma sum_nonneg_all_zero : ∀ (l : List ℝ), (∀ x ∈ l, 0 ≤ x) → l.sum = 0 → ∀ x ∈ l, x = 0
  | [], _, _ => by simp
  | y :: l, h0, hs => by
    have hy : 0 ≤ y := h0 y (List.mem_cons_self y l)
    have hl : 0 ≤ l.sum := List.sum_nonneg (fun x hx => h0 x (List.mem_cons_of_mem _ hx))
    rw [List.sum_cons] at hs
    have hy0 : y = 0 := by linarith
    have hl0 : l.sum = 0 := by linarith
    intro x hx
    rcases List.mem_cons.mp hx with h | h
    · rw [h, hy0]
    · exact sum_nonneg_all_zero l (fun x hx => h0 x (List.mem_cons_of_mem _ hx)) hl0 x h

lemma calculateAllMetrics_callPutGammaRatio (aggs : List StrikeData) :
    (calculateAllMetrics aggs).callPutGammaRatio
      = (JsVal.finDiv ((aggs.map (fun ge => ge.callGamma)).sum)
          ((aggs.map (fun ge => ge.putGamma)).sum)).abs := rfl

lemma calculateAllMetrics_weighted (aggs : List StrikeData) :
    (calculateAllMetrics aggs).gammaWeightedAvgStrike
      = JsVal.finDiv ((aggs.map (fun ge => ge.strike * |ge.netGamma|)).sum)
          ((aggs.map (fun ge => |ge.netGamma|)).sum) := rfl

lemma calculateAllMetrics_totalPut (aggs : List StrikeData) :
    (calculateAllMetrics aggs).totalPutGamma = (aggs.map (fun ge => ge.putGamma)).sum := rfl

lemma calculateAllMetrics_totalCall (aggs : List StrikeData) :
    (calculateAllMetrics aggs).totalCallGamma = (aggs.map (fun ge => ge.callGamma)).sum := rfl

/-! ### Claim theorems -/

/-- C1: the claim says `getAverageIVAndDTE` never reads spot from ambient
state, but the source reads `window.currentPrice || 450`.  At the concrete
eleven-contract input, changing only the ambient global price from `100` to
`200` changes the reported ATM implied volatility from `0.10` to `0.18`, so
the output is not a function of the contract list alone. -/
theorem C1_atm_depends_on_ambient_price :
    (getAverageIVAndDTE (some 100) (some elevenContracts)).atmIV = 1/10
  ∧ (getAverageIVAndDTE (some 200) (some elevenContracts)).atmIV = 9/50
  ∧ getAverageIVAndDTE (some 100) (some elevenContracts)
      ≠ getAverageIVAndDTE (some 200) (some elevenContracts) := by
  have h1 : (getAverageIVAndDTE (some 100) (some elevenContracts)).atmIV = 1/10 := by
    norm_num [getAverageIVAndDTE, windowCurrentPriceOr450, elevenContracts,
      atmNearContract, atmFarContract, List.insertionSort, List.orderedInsert]
  have h2 : (getAverageIVAndDTE (some 200) (some elevenContracts)).atmIV = 9/50 := by
    norm_num [getAverageIVAndDTE, windowCurrentPriceOr450, elevenContracts,
      atmNearContract, atmFarContract, List.insertionSort, List.orderedInsert]
  refine ⟨h1, h2, fun heq => ?_⟩
  rw [heq] at h1
  rw [h1] at h2
  norm_num at h2

/-- C2: every aggregate produced by `aggregateByStrike` satisfies
`netGamma = callGamma + putGamma` exactly, and the invariant already holds in
the strike map after folding any list of contracts (i.e. after every
per-contract fold step), not by a later correction pass. -/
theorem C2_net_eq_call_plus_put :
    ∀ (gc : GammaCalculator) (contracts : List Contract) (spotPrice : ℝ),
      (∀ b ∈ aggregateByStrike gc contracts spotPrice,
        b.netGamma = b.callGamma + b.putGamma)
    ∧ ∀ (processed : List Contract) (s : ℝ),
        ((aggFold gc processed spotPrice).data s).netGamma
          = ((aggFold gc processed spotPrice).data s).callGamma
            + ((aggFold gc processed spotPrice).data s).putGamma := by
  intro gc contracts spotPrice
  constructor
  · intro b hb
    unfold aggregateByStrike at hb
    obtain ⟨s, -, rfl⟩ := List.mem_map.mp hb
    exact aggFold_net gc contracts spotPrice s
  · intro processed s
    exact aggFold_net gc processed spotPrice s

/-- C2 witness: the invariant at the single bucket produced from one concrete
contract. -/
theorem C2_net_eq_call_plus_put_witness :
    ((aggFold {} [sampleCall] 100).data 100).netGamma
      = ((aggFold {} [sampleCall] 100).data 100).callGamma
        + ((aggFold {} [sampleCall] 100).data 100).putGamma :=
  (C2_net_eq_call_plus_put {} [sampleCall] 100).1 _
    (by
      unfold aggregateByStrike
      refine List.mem_map.mpr ⟨100, ?_, rfl⟩
      rw [Finset.mem_sort]
      simp [aggFold, applyExposure, initAggState, calculateGammaExposure, sampleCall])

/-- C3: the gamma-flip level of `calculateGammaEnvironment` is the midpoint of
the first adjacent pair (in list order, ascending strikes) whose net values
have opposite signs, `null` when no sign change exists; on Scenario E
(net signs `[+,+,−,+]` at strikes `100,101,102,103`) it is `101.5`, ignoring
the second crossing. -/
theorem C3_flip_first_crossing :
    (∀ (l : List StrikeData) (p : ℝ) (pre post : List (StrikeData × StrikeData))
        (a b : StrikeData),
        l.zip l.tail = pre ++ (a, b) :: post →
        (∀ q ∈ pre, ¬ netSignChange q.1 q.2) →
        netSignChange a b →
        (calculateGammaEnvironment l p).gammaFlipLevel = some ((a.strike + b.strike) / 2))
  ∧ (∀ (l : List StrikeData) (p : ℝ),
        (∀ q ∈ l.zip l.tail, ¬ netSignChange q.1 q.2) →
        (calculateGammaEnvironment l p).gammaFlipLevel = none)
  ∧ (calculateGammaEnvironment scenarioEAggregates 100).gammaFlipLevel = some (101.5 : ℝ) := by
  refine ⟨?_, ?_, ?_⟩
  · intro l p pre post a b hzip hpre hab
    rw [calculateGammaEnvironment_flip]
    exact findFlipLevel_first l pre post a b hzip hpre hab
  · intro l p h
    rw [calculateGammaEnvironment_flip]
    exact (findFlipLevel_none_iff l).mpr h
  · rw [calculateGammaEnvironment_flip]
    norm_num [scenarioEAggregates, findFlipLevel, netSignChange, signedAggregate]

/-- C3 witness: the first-crossing rule applied to Scenario E, with the
crossing pair `(101, 102)` and the non-crossing pair before it discharged
concretely. -/
theorem C3_flip_first_crossing_witness :
    (calculateGammaEnvironment scenarioEAggregates 100).gammaFlipLevel
      = some (((signedAggregate 101 1).strike + (signedAggregate 102 (-1)).strike) / 2)
  ∧ (calculateGammaEnvironment [signedAggregate 100 1] 100).gammaFlipLevel = none :=
  ⟨C3_flip_first_crossing.1 scenarioEAggregates 100
      [(signedAggregate 100 1, signedAggregate 101 1)]
      [(signedAggregate 102 (-1), signedAggregate 103 1)]
      (signedAggregate 101 1) (signedAggregate 102 (-1))
      (by simp [scenarioEAggregates])
      (by norm_num [netSignChange, signedAggregate])
      (by norm_num [netSignChange, signedAggregate]),
    C3_flip_first_crossing.2.1 [signedAggregate 100 1] 100 (by simp)⟩

/-- C4 counterexample: no `NoContractsError` exists anywhere in the code; on
the empty input, aggregation returns the empty list and
`calculateGammaEnvironment` returns an ordinary statistics record (with
`neutral` environment, `NaN` degenerate statistics and no flip level) instead
of raising an error. -/
theorem C4_counterexample :
    aggregateByStrike {} [] 100 = []
  ∧ calculateGammaEnvironment [] 100 =
      { environment := "neutral", environmentStrength := JsVal.nan,
        strengthInterpretation :=
          { level := "Very Weak", color := "⚪",
            volatilityImpact := "Minimal impact",
            description := "Minimal gamma influence on price action" },
        gammaFlipLevel := none,
        description := "Balanced gamma exposure with mixed market maker positioning. Moderate volatility expected with no clear directional bias.",
        positiveStrikes := 0, negativeStrikes := 0, neutralStrikes := 0,
        positiveStrikePercentage := JsVal.nan,
        negativeStrikePercentage := JsVal.nan } := by
  constructor
  · simp [aggregateByStrike, aggFold, initAggState]
  · simp [calculateGammaEnvironment, calculateAllMetrics, findFlipLevel,
      JsVal.finDiv, JsVal.geReal, JsVal.mul]

/-- C4 amended: aggregating or classifying zero contracts never raises; for
every spot, `aggregateByStrike` of the empty list is the empty list, and
`calculateGammaEnvironment` of the empty aggregate list returns a statistics
record with `neutral` environment, `NaN` strength (surfaced as the `Very Weak`
bucket because every `NaN` comparison is false) and no flip level. -/
theorem C4_empty_returns_record :
    ∀ (gc : GammaCalculator) (spot p : ℝ),
      aggregateByStrike gc [] spot = []
    ∧ (calculateGammaEnvironment [] p).environment = "neutral"
    ∧ (calculateGammaEnvironment [] p).gammaFlipLevel = none
    ∧ (calculateGammaEnvironment [] p).environmentStrength = JsVal.nan
    ∧ (calculateGammaEnvironment [] p).strengthInterpretation.level = "Very Weak" := by
  intro gc spot p
  refine ⟨by simp [aggregateByStrike, aggFold, initAggState], ?_, ?_, ?_, ?_⟩
  · simp [calculateGammaEnvironment, calculateAllMetrics]
  · simp [calculateGammaEnvironment, findFlipLevel]
  · simp [calculateGammaEnvironment, calculateAllMetrics, JsVal.finDiv]
  · simp [calculateGammaEnvironment, calculateAllMetrics, JsVal.finDiv, JsVal.geReal]

/-- C5 counterexample: `aggregateByStrike` performs no validity check; the
invalid contract with negative open interest is not excluded — it creates and
fills a strike bucket, so the result differs from aggregating the (empty)
valid subset. -/
theorem C5_counterexample :
    ¬ specValidContract invalidContract
  ∧ aggregateByStrike {} [invalidContract] 100 ≠ aggregateByStrike {} [] 100
  ∧ ∃ b ∈ aggregateByStrike {} [invalidContract] 100, b.strike = 100 ∧ b.totalOI = -5 := by
  refine ⟨?_, ?_, ?_⟩
  · intro h
    have := h.2.1
    norm_num [invalidContract] at this
  · intro h
    have hlen := congrArg List.length h
    simp [aggregateByStrike, aggFold, applyExposure, initAggState,
      calculateGammaExposure, invalidContract] at hlen
  · simp [aggregateByStrike, aggFold, applyExposure, initAggState,
      calculateGammaExposure, updateStrikeData, emptyStrikeData, invalidContract]

/-- C5 amended: aggregation filters nothing — every contract of the input,
valid or invalid, gets a bucket at its strike in the output (validation
happens upstream, in the CSV parser, not in `aggregateByStrike`). -/
theorem C5_no_contract_filtering :
    ∀ (gc : GammaCalculator) (l : List Contract) (spot : ℝ) (c : Contract),
      c ∈ l → ∃ b ∈ aggregateByStrike gc l spot, b.strike = c.strike := by
  intro gc l spot c hc
  exact mem_aggregate_of_mem gc l spot c hc

/-- C5 witness: the invalid contract itself gets a bucket at strike 100. -/
theorem C5_no_contract_filtering_witness :
    ∃ b ∈ aggregateByStrike {} [invalidContract] 100, b.strike = invalidContract.strike :=
  C5_no_contract_filtering {} [invalidContract] 100 invalidContract
    (List.mem_singleton_self invalidContract)

/-- C6 counterexample: with the single all-zero aggregate, `totalPutGamma` is
exactly zero but `callPutGammaRatio` is `NaN` (`|0/0|`), not `+∞`, refuting
the claim for every aggregate list with zero total put gamma. -/
theorem C6_counterexample :
    (calculateAllMetrics [zeroAggregate]).totalPutGamma = 0
  ∧ (calculateAllMetrics [zeroAggregate]).callPutGammaRatio = JsVal.nan
  ∧ (calculateAllMetrics [zeroAggregate]).callPutGammaRatio ≠ JsVal.posInf := by
  refine ⟨?_, ?_, ?_⟩
  · simp [calculateAllMetrics_totalPut, zeroAggregate]
  · simp [calculateAllMetrics_callPutGammaRatio, zeroAggregate, JsVal.finDiv, JsVal.abs]
  · simp [calculateAllMetrics_callPutGammaRatio, zeroAggregate, JsVal.finDiv, JsVal.abs]

/-- C6 amended: when `totalPutGamma = 0` the ratio is `+∞` only if
`totalCallGamma ≠ 0` (it is `NaN` when both vanish); and when the total
absolute net gamma is zero, `gammaWeightedAvgStrike` is the `NaN` sentinel,
never silently zeroed. -/
theorem C6_degenerate_metrics :
    ∀ aggs : List StrikeData,
      ((calculateAllMetrics aggs).totalPutGamma = 0 →
        (calculateAllMetrics aggs).totalCallGamma ≠ 0 →
        (calculateAllMetrics aggs).callPutGammaRatio = JsVal.posInf)
    ∧ ((aggs.map (fun ge => |ge.netGamma|)).sum = 0 →
        (calculateAllMetrics aggs).gammaWeightedAvgStrike = JsVal.nan) := by
  intro aggs
  constructor
  · intro hp hc
    rw [calculateAllMetrics_totalPut] at hp
    rw [calculateAllMetrics_totalCall] at hc
    rw [calculateAllMetrics_callPutGammaRatio, hp]
    unfold JsVal.finDiv
    rcases lt_trichotomy ((aggs.map (fun ge => ge.callGamma)).sum) 0 with h | h | h
    · simp [h, not_lt.mpr (le_of_lt h), JsVal.abs]
    · exact absurd h hc
    · simp [h, JsVal.abs]
  · intro h
    rw [calculateAllMetrics_weighted, h]
    have hnum : (aggs.map (fun ge => ge.strike * |ge.netGamma|)).sum = 0 := by
      apply List.sum_eq_zero
      intro x hx
      obtain ⟨ge, hge, rfl⟩ := List.mem_map.mp hx
      have : |ge.netGamma| = 0 :=
        sum_nonneg_all_zero _ (fun y hy => by
          obtain ⟨g, -, rfl⟩ := List.mem_map.mp hy; exact abs_nonneg _) h
          _ (List.mem_map.mpr ⟨ge, hge, rfl⟩)
      rw [this, mul_zero]
    rw [hnum]
    simp [JsVal.finDiv]

/-- C6 witness: a call-only aggregate makes the ratio `+∞`, and a cancelling
aggregate makes the weighted average strike `NaN`. -/
theorem C6_degenerate_metrics_witness :
    (calculateAllMetrics [callOnlyAggregate]).callPutGammaRatio = JsVal.posInf
  ∧ (calculateAllMetrics [cancelAggregate]).gammaWeightedAvgStrike = JsVal.nan :=
  ⟨(C6_degenerate_metrics [callOnlyAggregate]).1
      (by simp [calculateAllMetrics_totalPut, callOnlyAggregate])
      (by norm_num [calculateAllMetrics_totalCall, callOnlyAggregate]),
    (C6_degenerate_metrics [cancelAggregate]).2
      (by norm_num [cancelAggregate])⟩

/-- C7: `aggregateByStrike` is order-independent — permuting the input
contract list yields the identical list of strike aggregates. -/
theorem C7_aggregate_order_independent :
    ∀ (gc : GammaCalculator) (l1 l2 : List Contract) (spot : ℝ),
      l1.Perm l2 → aggregateByStrike gc l1 spot = aggregateByStrike gc l2 spot := by
  intro gc l1 l2 spot hp
  unfold aggregateByStrike aggFold
  rw [hp.foldl_eq' (fun x _ y _ z => applyExposure_comm z _ _)]

/-- C7 witness: swapping two concrete contracts leaves the aggregates
unchanged. -/
theorem C7_aggregate_order_independent_witness :
    aggregateByStrike {} [sampleCall, samplePut] 100
      = aggregateByStrike {} [samplePut, sampleCall] 100 :=
  C7_aggregate_order_independent {} [sampleCall, samplePut] [samplePut, sampleCall] 100
    (List.Perm.swap samplePut sampleCall [])

/-- C8: raising the significance threshold never increases the number of
returned walls, for call walls and put walls alike, at every aggregate list,
spot and wall cap. -/
theorem C8_wall_count_threshold_monotone :
    ∀ (aggs : List StrikeData) (p : ℝ) (m : ℕ) (t1 t2 : ℝ),
      t1 ≤ t2 →
      (WallAnalyzer.findCallWalls ⟨t2⟩ aggs p m).length
        ≤ (WallAnalyzer.findCallWalls ⟨t1⟩ aggs p m).length
    ∧ (WallAnalyzer.findPutWalls ⟨t2⟩ aggs p m).length
        ≤ (WallAnalyzer.findPutWalls ⟨t1⟩ aggs p m).length := by
  intro aggs p m t1 t2 h
  exact ⟨findCallWalls_count_mono aggs p m h, findPutWalls_count_mono aggs p m h⟩

/-- C8 witness: the monotonicity instance at a concrete aggregate and the
thresholds `0.05 ≤ 0.10`. -/
theorem C8_wall_count_threshold_monotone_witness :
    ((1:ℝ)/20 ≤ 1/10)
  ∧ ((WallAnalyzer.findCallWalls ⟨1/10⟩ [wallAggregate] 100 5).length
      ≤ (WallAnalyzer.findCallWalls ⟨1/20⟩ [wallAggregate] 100 5).length
    ∧ (WallAnalyzer.findPutWalls ⟨1/10⟩ [wallAggregate] 100 5).length
      ≤ (WallAnalyzer.findPutWalls ⟨1/20⟩ [wallAggregate] 100 5).length) :=
  ⟨by norm_num,
    C8_wall_count_threshold_monotone [wallAggregate] 100 5 (1/20) (1/10) (by norm_num)⟩

/-- C9: for positive spot, strike, volatility and time to expiry the
Black-Scholes gamma of the source is strictly positive; it does not depend on
the option type (the same `calculateGamma` value is reported for a call and a
put contract that agree elsewhere); and gamma is exactly `0` whenever
`timeToExpiry ≤ 0`. -/
theorem C9_gamma_positive_type_independent :
    ∀ (gc : GammaCalculator) (spot strike tau vol : ℝ),
      (0 < spot → 0 < strike → 0 < vol → 0 < tau →
        0 < gc.calculateGamma spot strike tau vol)
    ∧ (tau ≤ 0 → gc.calculateGamma spot strike tau vol = 0)
    ∧ ∀ (c : Contract) (p : ℝ),
        (calculateGammaExposure gc { c with optionType := "call" } p).gamma
          = (calculateGammaExposure gc { c with optionType := "put" } p).gamma := by
  intro gc spot strike tau vol
  refine ⟨?_, ?_, ?_⟩
  · intro hs _hk hv ht
    unfold GammaCalculator.calculateGamma
    rw [if_neg (not_le.mpr ht)]
    apply div_pos
    · unfold GammaCalculator.normPDF
      apply div_pos (Real.exp_pos _)
      exact Real.sqrt_pos.mpr (by positivity)
    · have := Real.sqrt_pos.mpr ht
      positivity
  · intro ht
    unfold GammaCalculator.calculateGamma
    rw [if_pos ht]
  · intro c p
    rfl

/-- C9 witness: gamma is positive at a concrete at-the-money input, zero for
an expired input, and type-independent at a concrete contract. -/
theorem C9_gamma_positive_type_independent_witness :
    0 < GammaCalculator.calculateGamma {} 100 100 (30/365) (1/5)
  ∧ GammaCalculator.calculateGamma {} 100 100 (-1) (1/5) = 0
  ∧ (calculateGammaExposure {} { sampleCall with optionType := "call" } 100).gamma
      = (calculateGammaExposure {} { sampleCall with optionType := "put" } 100).gamma :=
  ⟨(C9_gamma_positive_type_independent {} 100 100 (30/365) (1/5)).1
      (by norm_num) (by norm_num) (by norm_num) (by norm_num),
    (C9_gamma_positive_type_independent {} 100 100 (-1) (1/5)).2.1 (by norm_num),
    (C9_gamma_positive_type_independent {} 100 100 (30/365) (1/5)).2.2 sampleCall 100⟩

/-- C10: `getAverageIVAndDTE` on a `null` or empty contract list returns the
all-zero statistics record, for every ambient price — no error, no `NaN`. -/
theorem C10_null_or_empty_gives_zeros :
    ∀ ambient : Option ℝ,
      getAverageIVAndDTE ambient none = { atmIV := 0, overallAvgIV := 0, avgDTE := 0 }
    ∧ getAverageIVAndDTE ambient (some [])
        = { atmIV := 0, overallAvgIV := 0, avgDTE := 0 } := by
  intro ambient
  exact ⟨rfl, rfl⟩

end GexCalc
